import Mathlib

set_option maxRecDepth 10000

/-!
Shallow embedding of the RAG pipeline of this repository (file
server/rag.ts, primary implementation: the Gemini and yt-dlp based
`RAGService` class, together with the storage queries of
server/storage.ts that it uses).

Conventions of the embedding:
* Pure methods become Lean functions over `String`, `List` and `Nat`.
* Stateful methods (database writes, temp files) become explicit state
  passing over the `St` record, plus a list of `RAGAction` values that
  records which external effects the call performed.
* Fallible external calls (audio download, Whisper transcription, the
  embedding and chat backends) are parameterised by an `Env` record
  respectively a `GenOutcome` value describing the outcome of the call.
* JavaScript numbers used here are non-negative integers, so they are
  modelled by `Nat`.  For-loops become fuel-based recursion; the fuel is
  chosen large enough on every terminating run, and exhausting it on
  every fuel value models a non-terminating loop.
-/

/-- A lesson, as consumed by the RAG service (shared/schema.ts; only the
fields read by rag.ts are modelled). -/
structure Lesson where
  id : String
  youtubeVideoId : String
  title : String
deriving DecidableEq

/-- A persisted text chunk row (table text_chunks of shared/schema.ts,
fields used by rag.ts and storage.ts). -/
structure TextChunk where
  lessonId : String
  transcriptId : Nat
  chunkIndex : Nat
  content : String
  startTime : Nat
  endTime : Nat
  tokenCount : Nat
  embedding : List Int
deriving DecidableEq

/-- A persisted video transcript row (table video_transcripts). -/
structure TranscriptRec where
  id : Nat
  lessonId : String
  transcript : String
  source : String
  language : String
deriving DecidableEq

namespace RAGService

/-- One chunk produced by `RAGService.chunkTranscript` (rag.ts lines
190-221): the element type of the returned array. -/
structure ChunkOut where
  content : String
  startTime : Nat
  endTime : Nat
deriving DecidableEq

/-- Helper for `chunkWords`: splits a character list at every space,
keeping empty fragments, with `acc` the reversed characters of the
fragment being read.  This is exactly the semantics of JavaScript
`split(' ')` over the character sequence of the string. -/
def splitSpaceAux (acc : List Char) : List Char → List String
  | [] => [String.mk acc.reverse]
  | c :: cs =>
    if c = ' ' then String.mk acc.reverse :: splitSpaceAux [] cs
    else splitSpaceAux (c :: acc) cs

/-- The word list of a transcript: `transcript.split(' ')` of rag.ts line
195.  JavaScript `split(' ')` splits on every single space character,
keeps empty fragments, and returns a one-element list holding the empty
string on empty input. -/
def chunkWords (transcript : String) : List String :=
  splitSpaceAux [] transcript.data

/-- JavaScript `arr.join(' ')` over a list of words (rag.ts line 204). -/
def joinSpace : List String → String
  | [] => ""
  | [w] => w
  | w :: ws => w ++ " " ++ joinSpace ws

/-- The chunk built by one iteration of the loop of
`RAGService.chunkTranscript` at window start `i`:
`words.slice(i, i + chunkSize)` joined by single spaces, with start and
end times linearly interpolated over an assumed duration of 300 seconds
(rag.ts lines 200-217).  `Math.floor(i / totalWords * 300)` is the
truncated natural division `i * 300 / totalWords`, and the outer
`Math.min(-, 1)` before scaling becomes `min - 300` after scaling. -/
def mkChunkOut (totalWords chunkSize i : Nat) (words : List String) : ChunkOut :=
  { content := joinSpace ((words.drop i).take chunkSize)
    startTime := i * 300 / totalWords
    endTime := min ((i + chunkSize) * 300 / totalWords) 300 }

/-- The loop `for (let i = 0; i < words.length; i += (chunkSize - overlap))`
of rag.ts lines 202-218, as fuel-based recursion on the loop counter `i`.
A `none` result means the fuel ran out; `chunkLoop` returns `none` for
every fuel exactly when the JavaScript loop does not terminate (which
happens when the step is not positive). -/
def chunkLoop (words : List String) (chunkSize step : Nat) : Nat → Nat → Option (List ChunkOut)
  | _, 0 => none
  | i, fuel + 1 =>
    if i < words.length then
      match chunkLoop words chunkSize step (i + step) fuel with
      | none => none
      | some rest => some (mkChunkOut words.length chunkSize i words :: rest)
    else
      some []

/-- Model of `RAGService.chunkTranscript(transcript, chunkSize = 500,
overlap = 100)` (rag.ts lines 190-221).  The loop step is
`chunkSize - overlap`; in JavaScript a zero or negative step makes the
loop run forever, which the model renders as `none` (the fuel
`words.length + 1` is sufficient for every positive step, see
`chunkLoop_count`).  Note `Nat` subtraction sends the negative-step case
to step zero, which diverges the same way. -/
def chunkTranscript (transcript : String) (chunkSize : Nat := 500) (overlap : Nat := 100) :
    Option (List ChunkOut) :=
  let words := chunkWords transcript
  chunkLoop words chunkSize (chunkSize - overlap) 0 (words.length + 1)

end RAGService

namespace DatabaseStorage

/-- Ranking relation of the similarity search: better score first, ties
broken by ascending chunk ordinal. -/
def rankedBefore (score : TextChunk → Rat) (a b : TextChunk) : Prop :=
  score b < score a ∨ (score a = score b ∧ a.chunkIndex ≤ b.chunkIndex)

instance (score : TextChunk → Rat) : DecidableRel (rankedBefore score) := fun a b =>
  inferInstanceAs
    (Decidable (score b < score a ∨ (score a = score b ∧ a.chunkIndex ≤ b.chunkIndex)))

instance (score : TextChunk → Rat) : IsTotal TextChunk (rankedBefore score) := by
  constructor
  intro a b
  rcases lt_trichotomy (score a) (score b) with h | h | h
  · exact Or.inr (Or.inl h)
  · rcases Nat.le_total a.chunkIndex b.chunkIndex with hi | hi
    · exact Or.inl (Or.inr ⟨h, hi⟩)
    · exact Or.inr (Or.inr ⟨h.symm, hi⟩)
  · exact Or.inl (Or.inl h)

instance (score : TextChunk → Rat) : IsTrans TextChunk (rankedBefore score) := by
  constructor
  intro a b c hab hbc
  rcases hab with hab | ⟨hab, hab2⟩ <;> rcases hbc with hbc | ⟨hbc, hbc2⟩
  · exact Or.inl (lt_trans hbc hab)
  · exact Or.inl (hbc ▸ hab)
  · exact Or.inl (hab ▸ hbc)
  · exact Or.inr ⟨hab.trans hbc, Nat.le_trans hab2 hbc2⟩

/-- Modelled from the spec: `storage.searchTextChunksByVector` is called
by `RAGService.semanticSearch` (rag.ts line 312) but is defined nowhere
in the repository sources (storage.ts only has the unrelated placeholder
`searchTextChunks`).  Spec section 4.4: score every candidate chunk of
the requested scope against the query vector, exclude chunks scoring
below `similarityThreshold` even if among the top K, order best score
first with ties broken by ascending chunk ordinal, and return at most
`limit` chunks.  The similarity scoring of a chunk against the query
vector is abstracted as the function `score`. -/
def searchTextChunksByVector (score : TextChunk → Rat) (candidates : List TextChunk)
    (limit : Nat) (similarityThreshold : Rat) : List TextChunk :=
  (List.insertionSort (rankedBefore score)
      (candidates.filter fun c => similarityThreshold ≤ score c)).take limit

end DatabaseStorage

namespace RAGService

/-- Model of `RAGService.semanticSearch(query, lessonId?, limit = 5,
similarityThreshold = 0.3)` (rag.ts lines 304-320).  Generating the query
embedding throws when the Gemini key is not configured (`none`);
otherwise the search is delegated to the storage layer.  The candidate
chunk set of the requested scope and the similarity of each candidate to
the query embedding are abstracted as `candidates` and `score`. -/
def semanticSearch (geminiConfigured : Bool) (score : TextChunk → Rat)
    (candidates : List TextChunk) (limit : Nat := 5) (similarityThreshold : Rat := 3 / 10) :
    Option (List TextChunk) :=
  if geminiConfigured then
    some (DatabaseStorage.searchTextChunksByVector score candidates limit similarityThreshold)
  else none

/-- One source reference of the answer payload of
`RAGService.generateRAGResponse` (rag.ts lines 325-330). -/
structure SourceRef where
  lessonId : String
  timestamp : Nat
  snippet : String
deriving DecidableEq

/-- The answer payload of `RAGService.generateRAGResponse`. -/
structure RAGAnswer where
  answer : String
  sources : List SourceRef
deriving DecidableEq

/-- Outcome of the Gemini chat call `chat.sendMessage(question)`:
either a reply text or a thrown error. -/
inductive GenOutcome where
  | ok (text : String)
  | failed
deriving DecidableEq

/-- The canned reply when the Gemini key is not configured (rag.ts line
333). -/
def notConfiguredAnswer : String :=
  "AI assistant is not configured. Please check Google Gemini API key."

/-- The canned reply for an empty context (rag.ts line 341); it
interpolates the question and the course title. -/
def emptyContextAnswer (question courseTitle : String) : String :=
  "I don\u0027t have specific information from the course content about \"" ++ question
    ++ "\". The course \"" ++ courseTitle
    ++ "\" may not have been processed for AI assistance yet, or this topic might not be covered in the available video transcripts. Try asking about specific topics you see in the course lessons."

/-- The fallback reply when the model returns an empty text (rag.ts line
383, the right operand of the JavaScript or). -/
def noResponseAnswer : String :=
  "I couldn\u0027t generate a response."

/-- The fixed apology reply of the catch branch (rag.ts line 389). -/
def apologyAnswer : String :=
  "Sorry, I encountered an error while generating a response. Please try again."

/-- The source entry built from one context chunk (rag.ts lines 351-355):
`chunk.content.substring(0, 200) + (chunk.content.length > 200 ? "..." : "")`,
with the JavaScript string operations taken over the character sequence
of the content. -/
def mkSourceRef (c : TextChunk) : SourceRef :=
  { lessonId := c.lessonId
    timestamp := c.startTime
    snippet := String.mk (c.content.data.take 200)
      ++ (if 200 < c.content.data.length then "..." else "") }

/-- Model of `RAGService.generateRAGResponse(question, courseTitle,
courseDescription, relevantChunks)` (rag.ts lines 325-393).  The first
component is the returned record; the second component records whether
the Gemini chat backend was invoked.  `chatConfigured` is the presence of
the Gemini key and `outcome` the result of the chat call.  The prompt
strings built from the chunks are sent to the backend but do not flow
into the returned record, so they are not modelled; the `sources` list is
computed from the chunks before the backend call exactly as in the
source. -/
def generateRAGResponse (chatConfigured : Bool)
    (question courseTitle courseDescription : String)
    (relevantChunks : List TextChunk) (outcome : GenOutcome) : RAGAnswer × Bool :=
  if chatConfigured = false then
    ({ answer := notConfiguredAnswer, sources := [] }, false)
  else if relevantChunks.length = 0 then
    ({ answer := emptyContextAnswer question courseTitle, sources := [] }, false)
  else
    let sources := relevantChunks.map mkSourceRef
    match outcome with
    | GenOutcome.ok t =>
      ({ answer := if t = "" then noResponseAnswer else t, sources := sources }, true)
    | GenOutcome.failed =>
      ({ answer := apologyAnswer, sources := sources }, true)

end RAGService

/-- Outcomes of the external calls an ingestion run can make: audio
download, Whisper transcription, and the Gemini embedding backend, plus
whether a chunk insert succeeds. -/
structure Env where
  downloadOk : Bool
  transcribeResult : Option String
  geminiConfigured : Bool
  embedOk : Bool
  persistChunkOk : Bool
deriving DecidableEq

/-- The state touched by ingestion: the two database tables used by the
RAG service and the temporary audio files on disk.  `nextId` generates
fresh transcript row ids. -/
structure St where
  transcripts : List TranscriptRec
  chunks : List TextChunk
  tempFiles : List String
  nextId : Nat
deriving DecidableEq

/-- External effects an ingestion run performs, in order. -/
inductive RAGAction where
  | download
  | transcribe
  | deleteFile
  | persistTranscript
  | embedCall
  | persistChunk
deriving DecidableEq

/-- The chunk rows stored for a lesson (observer on the model state). -/
def chunksFor (st : St) (lessonId : String) : List TextChunk :=
  st.chunks.filter fun c => c.lessonId == lessonId

namespace DatabaseStorage

/-- Model of `DatabaseStorage.getVideoTranscript(lessonId)` (storage.ts
lines 582-588): the first stored transcript row of the lesson, if any. -/
def getVideoTranscript (st : St) (lessonId : String) : Option TranscriptRec :=
  st.transcripts.find? fun t => t.lessonId == lessonId

/-- Model of `DatabaseStorage.createVideoTranscript` (storage.ts lines
590-593): inserts a row with a fresh id.  The position of the new row in
the list is irrelevant to the modelled queries; it is put in front. -/
def createVideoTranscript (st : St) (lessonId transcript source language : String) : St :=
  { st with
    transcripts :=
      { id := st.nextId, lessonId := lessonId, transcript := transcript,
        source := source, language := language } :: st.transcripts
    nextId := st.nextId + 1 }

/-- Model of `DatabaseStorage.createTextChunk` (storage.ts lines
613-616). -/
def createTextChunk (st : St) (c : TextChunk) : St :=
  { st with chunks := st.chunks ++ [c] }

end DatabaseStorage

namespace RAGService

/-- The temporary audio file path `path.join(process.cwd(), "temp",
videoId + ".mp3")` of rag.ts line 89, relative to the working
directory. -/
def audioPath (videoId : String) : String :=
  "temp/" ++ videoId ++ ".mp3"

/-- Model of `RAGService.getVideoTranscript(lesson)` (rag.ts lines
42-78), with `downloadYouTubeAudio`, `transcribeWithWhisper` and
`cleanupFile` inlined.  Download failure returns null with no file left
behind; a failed transcription returns null while the downloaded audio
file is still on disk (the `cleanupFile` call of line 61 runs only after
a successful transcription); a successful transcription deletes the file
and then persists the transcript row. -/
def getVideoTranscript (env : Env) (lesson : Lesson) (st : St) :
    St × List RAGAction × Option String :=
  if env.downloadOk = false then
    (st, [RAGAction.download], none)
  else
    let p := audioPath lesson.youtubeVideoId
    let st1 : St := { st with tempFiles := st.tempFiles ++ [p] }
    match env.transcribeResult with
    | none => (st1, [RAGAction.download, RAGAction.transcribe], none)
    | some t =>
      let st2 : St := { st1 with tempFiles := st1.tempFiles.erase p }
      let st3 := DatabaseStorage.createVideoTranscript st2 lesson.id t "whisper_asr" "en"
      (st3, [RAGAction.download, RAGAction.transcribe, RAGAction.deleteFile,
        RAGAction.persistTranscript], some t)

/-- Model of `RAGService.generateEmbeddings(texts)` (rag.ts lines
226-246).  A `none` result models a thrown error: either the Gemini key
is unconfigured (line 228, no backend call made) or the Gemini call
failed (rethrown at line 244, after contacting the backend).  The
per-text requests are collapsed into a single `embedCall` marker, and the
numeric vector values, which play no role in any verified claim, are
modelled as empty lists. -/
def generateEmbeddings (env : Env) (texts : List String) :
    List RAGAction × Option (List (List Int)) :=
  if env.geminiConfigured = false then ([], none)
  else if env.embedOk then ([RAGAction.embedCall], some (texts.map fun _ => []))
  else ([RAGAction.embedCall], none)

/-- The chunk persisting loop of `processLessonForRAG` (rag.ts lines
285-296).  When `ok` is false the first `createTextChunk` call throws,
aborting the loop with no row written. -/
def persistChunks (ok : Bool) (st : St) : List TextChunk → St × List RAGAction × Bool
  | [] => (st, [], true)
  | c :: rest =>
    if ok then
      let next := persistChunks ok (DatabaseStorage.createTextChunk st c) rest
      (next.1, RAGAction.persistChunk :: next.2.1, next.2.2)
    else (st, [RAGAction.persistChunk], false)

/-- Model of `RAGService.processLessonForRAG(lesson)` (rag.ts lines
251-299).  The boolean is false when the run throws (an embedding or
persistence error propagates to the caller); soft skips return true.
The defensive re-fetch of the transcript record (lines 267-271) is
modelled faithfully, including its unreachable failure branch. -/
def processLessonForRAG (env : Env) (lesson : Lesson) (st : St) :
    St × List RAGAction × Bool :=
  match DatabaseStorage.getVideoTranscript st lesson.id with
  | some _ => (st, [], true)
  | none =>
    match getVideoTranscript env lesson st with
    | (st1, log1, none) => (st1, log1, true)
    | (st1, log1, some transcript) =>
      match DatabaseStorage.getVideoTranscript st1 lesson.id with
      | none => (st1, log1, true)
      | some trRec =>
        let chunks := (chunkTranscript transcript 500 100).getD []
        let texts := chunks.map fun c => c.content
        match generateEmbeddings env texts with
        | (log2, none) => (st1, log1 ++ log2, false)
        | (log2, some embs) =>
          let recs := chunks.enum.map fun p =>
            ({ lessonId := lesson.id
               transcriptId := trRec.id
               chunkIndex := p.1
               content := p.2.content
               startTime := p.2.startTime
               endTime := p.2.endTime
               tokenCount := (chunkWords p.2.content).length
               embedding := embs.getD p.1 [] } : TextChunk)
          let step := persistChunks env.persistChunkOk st1 recs
          (step.1, log1 ++ log2 ++ step.2.1, step.2.2)

end RAGService

/-- A concrete transcript of 401 single-letter words. -/
def t401 : String := String.mk (List.intersperse ' ' (List.replicate 401 'a'))

/-- The 9 word transcript of the chunking scenario of the spec. -/
def exampleTranscript : String := "the quick brown fox jumps over the lazy dog"

/-- A concrete lesson fixture. -/
def lessonA : Lesson :=
  { id := "lessonA", youtubeVideoId := "vid123", title := "Intro" }

/-- The empty state fixture. -/
def st0 : St := { transcripts := [], chunks := [], tempFiles := [], nextId := 0 }

/-- Environment fixture: every external call succeeds. -/
def envA : Env :=
  { downloadOk := true, transcribeResult := some "hello world",
    geminiConfigured := true, embedOk := true, persistChunkOk := true }

/-- Environment fixture: acquisition succeeds, the embedding backend is
not configured. -/
def envC : Env :=
  { downloadOk := true, transcribeResult := some "hello world",
    geminiConfigured := false, embedOk := true, persistChunkOk := true }

/-- Scenario chunk of ordinal 0 (scored 0.9 by `scnScore`). -/
def scnChunk0 : TextChunk :=
  { lessonId := "lessonA", transcriptId := 1, chunkIndex := 0, content := "alpha",
    startTime := 0, endTime := 100, tokenCount := 1, embedding := [] }

/-- Scenario chunk of ordinal 1 (scored 0.2 by `scnScore`). -/
def scnChunk1 : TextChunk :=
  { lessonId := "lessonA", transcriptId := 1, chunkIndex := 1, content := "beta",
    startTime := 100, endTime := 200, tokenCount := 1, embedding := [] }

/-- Scenario chunk of ordinal 2 (scored 0.5 by `scnScore`). -/
def scnChunk2 : TextChunk :=
  { lessonId := "lessonA", transcriptId := 1, chunkIndex := 2, content := "gamma",
    startTime := 200, endTime := 300, tokenCount := 1, embedding := [] }

/-- The scenario similarity scores 0.9, 0.2, 0.5 keyed by chunk ordinal. -/
def scnScore : TextChunk → Rat := fun c =>
  if c.chunkIndex = 0 then 9 / 10 else if c.chunkIndex = 1 then 2 / 10 else 5 / 10

/-- Environment fixture: the audio download succeeds and the Whisper
transcription fails. -/
def envT : Env :=
  { downloadOk := true, transcribeResult := none,
    geminiConfigured := true, embedOk := true, persistChunkOk := true }

namespace RAGService

/-- Arithmetic fact behind the chunk count: the ceiling division
`(n + s - 1) / s` satisfies the recurrence stepped by `s`. -/
theorem ceil_div_rec (n s : Nat) (hs : 1 ≤ s) (hn : 1 ≤ n) :
    (n + s - 1) / s = (n - s + s - 1) / s + 1 := by
  by_cases h : n ≤ s
  · have h1 : n - s = 0 := by omega
    rw [h1]
    have h2 : (0 + s - 1) / s = 0 := Nat.div_eq_of_lt (by omega)
    rw [h2]
    have h3 : n + s - 1 = (n - 1) + s := by omega
    rw [h3, Nat.add_div_right _ hs]
    have h4 : (n - 1) / s = 0 := Nat.div_eq_of_lt (by omega)
    omega
  · have h3 : n + s - 1 = (n - 1) + s := by omega
    have h4 : n - s + s - 1 = n - 1 := by omega
    rw [h3, h4, Nat.add_div_right _ hs]

/-- For a positive step, the chunking loop terminates whenever the fuel
exceeds the remaining word count, and produces exactly
`ceil((length - i) / step)` chunks. -/
theorem chunkLoop_count (words : List String) (chunkSize step : Nat) (hs : 1 ≤ step) :
    ∀ fuel i, words.length - i < fuel →
      ∃ l, chunkLoop words chunkSize step i fuel = some l ∧
        l.length = (words.length - i + step - 1) / step := by
  intro fuel
  induction fuel with
  | zero => intro i h; omega
  | succ fuel ih =>
    intro i h
    by_cases hi : i < words.length
    · obtain ⟨l, hl, hlen⟩ := ih (i + step) (by omega)
      have heq : chunkLoop words chunkSize step i (fuel + 1)
          = some (mkChunkOut words.length chunkSize i words :: l) := by
        simp only [chunkLoop, if_pos hi, hl]
      refine ⟨_, heq, ?_⟩
      simp only [List.length_cons, hlen]
      have h2 : words.length - (i + step) = words.length - i - step := by omega
      rw [h2]
      have h3 := ceil_div_rec (words.length - i) step hs (by omega)
      omega
    · refine ⟨[], ?_, ?_⟩
      · simp only [chunkLoop, if_neg hi]
      · simp only [List.length_nil]
        have h0 : words.length - i = 0 := by omega
        rw [h0]
        exact (Nat.div_eq_of_lt (by omega)).symm

/-- When the whole word list fits in one window (`length ≤ step` and the
window also covers it), the loop yields exactly the single chunk built at
index 0. -/
theorem chunkLoop_single (words : List String) (chunkSize step fuel : Nat)
    (h1 : 1 ≤ words.length) (h2 : words.length ≤ step) (hf : 2 ≤ fuel) :
    chunkLoop words chunkSize step 0 fuel
      = some [mkChunkOut words.length chunkSize 0 words] := by
  obtain ⟨fuel2, rfl⟩ : ∃ f, fuel = f + 2 := ⟨fuel - 2, by omega⟩
  simp only [chunkLoop, if_pos (by omega : 0 < words.length)]
  rw [if_neg (by omega : ¬ (0 + step < words.length))]

/-- A zero loop step never terminates: for every fuel value the loop at
an in-range index exhausts the fuel (the JavaScript loop index never
advances). -/
theorem chunkLoop_step_zero (words : List String) (chunkSize : Nat) :
    ∀ fuel i, i < words.length → chunkLoop words chunkSize 0 i fuel = none := by
  intro fuel
  induction fuel with
  | zero => intro i h; rfl
  | succ fuel ih =>
    intro i h
    have hrec := ih i h
    simp only [chunkLoop, if_pos h]
    rw [show i + 0 = i from rfl, hrec]

end RAGService

/-- Claim C5, amended: for every transcript of N >= 1 words and the
default parameters chunkSize = 500, overlap = 100, the chunker produces
exactly ceil(N / (chunkSize - overlap)) chunks (not
ceil(max(1, N - overlap) / (chunkSize - overlap)), and not always one
chunk for N <= chunkSize); when N <= chunkSize - overlap it produces
exactly one chunk covering the whole text. -/
theorem chunkTranscript_count_amended (transcript : String) (N : Nat)
    (hN : (RAGService.chunkWords transcript).length = N) (h1 : 1 ≤ N) :
    ∃ l, RAGService.chunkTranscript transcript 500 100 = some l
      ∧ l.length = (N + 399) / 400
      ∧ (N ≤ 400 → ∃ c, l = [c]
          ∧ c.content = RAGService.joinSpace (RAGService.chunkWords transcript)) := by
  obtain ⟨l, hl, hlen⟩ := RAGService.chunkLoop_count (RAGService.chunkWords transcript) 500 400
      (by omega) ((RAGService.chunkWords transcript).length + 1) 0 (by omega)
  refine ⟨l, hl, ?_, ?_⟩
  · rw [hlen]
    congr 1
    omega
  · intro hN400
    have hsingle := RAGService.chunkLoop_single (RAGService.chunkWords transcript) 500 400
        ((RAGService.chunkWords transcript).length + 1) (by omega) (by omega) (by omega)
    obtain rfl := Option.some.inj (hl.symm.trans hsingle)
    refine ⟨_, rfl, ?_⟩
    simp only [RAGService.mkChunkOut, List.drop_zero]
    rw [List.take_of_length_le (by omega : (RAGService.chunkWords transcript).length ≤ 500)]

/-- Claim C5, counterexample: a transcript of 401 words has N <=
chunkSize = 500, so the claim demands exactly one chunk, but the code
produces two (the loop visits the window starts 0 and 400). -/
theorem chunkTranscript_count_claim_false :
    (RAGService.chunkWords t401).length = 401
    ∧ 401 ≤ 500
    ∧ (RAGService.chunkTranscript t401 500 100).map List.length = some 2
    ∧ (RAGService.chunkTranscript t401 500 100).map List.length ≠ some 1 :=
  ⟨by decide, by decide, by decide, by decide⟩

/-- Witness for C5 (amended): a concrete 3 word transcript yields one
chunk covering the whole text, and (3 + 399) / 400 = 1. -/
theorem chunkTranscript_count_amended_witness :
    (RAGService.chunkWords "a b c").length = 3 ∧ 1 ≤ 3
    ∧ (∃ l, RAGService.chunkTranscript "a b c" 500 100 = some l
        ∧ l.length = (3 + 399) / 400
        ∧ (3 ≤ 400 → ∃ c, l = [c]
            ∧ c.content = RAGService.joinSpace (RAGService.chunkWords "a b c"))) :=
  ⟨by decide, by decide, chunkTranscript_count_amended "a b c" 3 (by decide) (by decide)⟩

/-- Claim C6, counterexample: on the 9 word scenario transcript with
chunkSize = 5 and overlap = 2, the chunk list is not the one of the
claim: the third chunk is not "lazy dog". -/
theorem chunkTranscript_scenario_claim_false :
    (RAGService.chunkTranscript exampleTranscript 5 2).map (·.map (·.content))
      ≠ some ["the quick brown fox jumps", "fox jumps over the lazy", "lazy dog"] := by
  decide

/-- Claim C6, amended: the scenario produces exactly 3 chunks, in order
"the quick brown fox jumps", "fox jumps over the lazy" and
"the lazy dog" (the window starts are 0, 3, 6, so the last window holds
the three words 6, 7, 8). -/
theorem chunkTranscript_scenario_amended :
    (RAGService.chunkTranscript exampleTranscript 5 2).map (·.map (·.content))
      = some ["the quick brown fox jumps", "fox jumps over the lazy", "the lazy dog"] := by
  decide

/-- Claim C7: with overlap = chunkSize the loop step is zero, and the
chunker does not reject the configuration: the loop index never advances,
so the JavaScript loop runs forever.  In the model the loop exhausts
every fuel value (first conjunct), hence the chunker produces no chunk
sequence at all (second conjunct), rather than signalling a
configuration error. -/
theorem chunkTranscript_overlap_eq_chunkSize_diverges :
    (∀ fuel : Nat, RAGService.chunkLoop (RAGService.chunkWords "a b c") 2 (2 - 2) 0 fuel = none)
    ∧ RAGService.chunkTranscript "a b c" 2 2 = none := by
  constructor
  · intro fuel
    exact RAGService.chunkLoop_step_zero (RAGService.chunkWords "a b c") 2 fuel 0 (by decide)
  · exact RAGService.chunkLoop_step_zero (RAGService.chunkWords "a b c") 2 _ 0 (by decide)

/-- Acquisition with a successful download and transcription: the temp
file is created and deleted, and the transcript row is persisted. -/
theorem getVideoTranscript_success (env : Env) (lesson : Lesson) (st : St) (t : String)
    (hdl : env.downloadOk = true) (htr : env.transcribeResult = some t) :
    RAGService.getVideoTranscript env lesson st
      = (DatabaseStorage.createVideoTranscript
            { st with tempFiles :=
                ((st.tempFiles ++ [RAGService.audioPath lesson.youtubeVideoId]).erase
                  (RAGService.audioPath lesson.youtubeVideoId)) }
            lesson.id t "whisper_asr" "en",
          [RAGAction.download, RAGAction.transcribe, RAGAction.deleteFile,
            RAGAction.persistTranscript], some t) := by
  unfold RAGService.getVideoTranscript
  rw [hdl, htr]
  rfl

/-- Looking up a lesson right after inserting its transcript row finds
that row. -/
theorem find_after_create (st : St) (lessonId t src lang : String) :
    DatabaseStorage.getVideoTranscript
        (DatabaseStorage.createVideoTranscript st lessonId t src lang) lessonId
      = some { id := st.nextId, lessonId := lessonId, transcript := t,
               source := src, language := lang } := by
  unfold DatabaseStorage.getVideoTranscript DatabaseStorage.createVideoTranscript
  exact List.find?_cons_of_pos _ (by simp)

/-- Embedding generation with no Gemini key configured throws before
calling the backend. -/
theorem generateEmbeddings_unconfigured (env : Env) (texts : List String)
    (h : env.geminiConfigured = false) :
    RAGService.generateEmbeddings env texts = ([], none) := by
  simp [RAGService.generateEmbeddings, h]

/-- Embedding generation with a configured key and a successful backend
call. -/
theorem generateEmbeddings_ok (env : Env) (texts : List String)
    (h1 : env.geminiConfigured = true) (h2 : env.embedOk = true) :
    RAGService.generateEmbeddings env texts
      = ([RAGAction.embedCall], some (texts.map fun _ => [])) := by
  simp [RAGService.generateEmbeddings, h1, h2]

/-- Embedding generation with a configured key and a failing backend
call. -/
theorem generateEmbeddings_failed (env : Env) (texts : List String)
    (h1 : env.geminiConfigured = true) (h2 : env.embedOk = false) :
    RAGService.generateEmbeddings env texts = ([RAGAction.embedCall], none) := by
  simp [RAGService.generateEmbeddings, h1, h2]

/-- The chunk persisting loop never touches the transcripts table. -/
theorem persistChunks_transcripts (ok : Bool) (recs : List TextChunk) :
    ∀ st : St, (RAGService.persistChunks ok st recs).1.transcripts = st.transcripts := by
  induction recs with
  | nil => intro st; rfl
  | cons c rest ih =>
    intro st
    cases ok with
    | false => rfl
    | true =>
      show (RAGService.persistChunks true (DatabaseStorage.createTextChunk st c) rest).1.transcripts
          = st.transcripts
      rw [ih (DatabaseStorage.createTextChunk st c)]
      rfl

/-- With working inserts the chunk persisting loop never throws. -/
theorem persistChunks_true_ok (recs : List TextChunk) :
    ∀ st : St, (RAGService.persistChunks true st recs).2.2 = true := by
  induction recs with
  | nil => intro st; rfl
  | cons c rest ih => intro st; exact ih (DatabaseStorage.createTextChunk st c)

/-- When the chunk persisting loop throws, the state is left unchanged
(the throw happens on the very first insert). -/
theorem persistChunks_failed (ok : Bool) (recs : List TextChunk) (st : St)
    (h : (RAGService.persistChunks ok st recs).2.2 = false) :
    (RAGService.persistChunks ok st recs).1 = st := by
  cases recs with
  | nil => exact Bool.noConfusion h
  | cons c rest =>
    cases ok with
    | false => rfl
    | true => exact Bool.noConfusion (h.symm.trans (persistChunks_true_ok (c :: rest) st))

/-- When a transcript row already exists for the lesson, ingestion
returns at once: the state is unchanged and no external action is
performed. -/
theorem processLesson_noop (env : Env) (lesson : Lesson) (st : St) (r : TranscriptRec)
    (h : DatabaseStorage.getVideoTranscript st lesson.id = some r) :
    RAGService.processLessonForRAG env lesson st = (st, [], true) := by
  unfold RAGService.processLessonForRAG
  rw [h]

/-- Iterating ingestion from a state that already holds a transcript row
for the lesson leaves the state fixed, whatever the environments. -/
theorem processLesson_foldl_noop (lesson : Lesson) (st : St) (r : TranscriptRec)
    (h : DatabaseStorage.getVideoTranscript st lesson.id = some r) :
    ∀ envs : List Env,
      envs.foldl (fun s e => (RAGService.processLessonForRAG e lesson s).1) st = st := by
  intro envs
  induction envs with
  | nil => rfl
  | cons e es ih =>
    rw [List.foldl_cons, processLesson_noop e lesson st r h]
    exact ih

/-- An ingestion run on a lesson with no stored transcript, whose
download and transcription succeed, always leaves exactly the new
transcript row in front of the table; and if the run throws, the chunk
table is unchanged. -/
theorem processLesson_run (env : Env) (lesson : Lesson) (st : St) (t : String)
    (h0 : DatabaseStorage.getVideoTranscript st lesson.id = none)
    (hdl : env.downloadOk = true) (htr : env.transcribeResult = some t) :
    (RAGService.processLessonForRAG env lesson st).1.transcripts
      = { id := st.nextId, lessonId := lesson.id, transcript := t,
          source := "whisper_asr", language := "en" } :: st.transcripts
    ∧ ((RAGService.processLessonForRAG env lesson st).2.2 = false →
        (RAGService.processLessonForRAG env lesson st).1.chunks = st.chunks) := by
  cases hgc : env.geminiConfigured with
  | false =>
    simp only [RAGService.processLessonForRAG, h0,
      getVideoTranscript_success env lesson st t hdl htr, find_after_create,
      generateEmbeddings_unconfigured env _ hgc]
    exact ⟨rfl, fun _ => rfl⟩
  | true =>
    cases heo : env.embedOk with
    | false =>
      simp only [RAGService.processLessonForRAG, h0,
        getVideoTranscript_success env lesson st t hdl htr, find_after_create,
        generateEmbeddings_failed env _ hgc heo]
      exact ⟨rfl, fun _ => rfl⟩
    | true =>
      simp only [RAGService.processLessonForRAG, h0,
        getVideoTranscript_success env lesson st t hdl htr, find_after_create,
        generateEmbeddings_ok env _ hgc heo]
      constructor
      · rw [persistChunks_transcripts]
        rfl
      · intro hf
        rw [persistChunks_failed _ _ _ hf]
        rfl

/-- Claim C1, counterexample: when the chat backend is not configured,
`generateRAGResponse` on a non-empty chunk list returns an empty sources
list, not one source entry per chunk, so the claim fails as stated (it
does not restrict itself to a configured backend). -/
theorem generateRAGResponse_sources_claim_false :
    ((RAGService.generateRAGResponse false "q" "Course" "Desc" [scnChunk0]
        (RAGService.GenOutcome.ok "hi")).1).sources = []
    ∧ ¬ (((RAGService.generateRAGResponse false "q" "Course" "Desc" [scnChunk0]
        (RAGService.GenOutcome.ok "hi")).1).sources.length = [scnChunk0].length) :=
  ⟨rfl, by decide⟩

/-- Claim C1, amended: when the generative backend is configured, for
every non-empty chunk list `generateRAGResponse` returns one source entry
per chunk, in chunk order, carrying the lesson id, the start time as
timestamp, and the first 200 characters of the chunk text with an
ellipsis marker appended exactly when the text is longer than 200
characters; the sources do not depend on the model outcome. -/
theorem generateRAGResponse_sources (question courseTitle courseDescription : String)
    (chunks : List TextChunk) (outcome : RAGService.GenOutcome) (h : chunks ≠ []) :
    ((RAGService.generateRAGResponse true question courseTitle courseDescription chunks
        outcome).1).sources
      = chunks.map (fun c =>
          { lessonId := c.lessonId, timestamp := c.startTime,
            snippet := String.mk (c.content.data.take 200)
              ++ (if 200 < c.content.data.length then "..." else "") })
    ∧ ∀ o1 o2 : RAGService.GenOutcome,
        ((RAGService.generateRAGResponse true question courseTitle courseDescription chunks
            o1).1).sources
        = ((RAGService.generateRAGResponse true question courseTitle courseDescription chunks
            o2).1).sources := by
  have hlen : ¬ (chunks.length = 0) := by simpa [List.length_eq_zero] using h
  constructor
  · cases outcome <;>
      simp [RAGService.generateRAGResponse, hlen, RAGService.mkSourceRef]
  · intro o1 o2
    cases o1 <;> cases o2 <;>
      simp [RAGService.generateRAGResponse, hlen]

/-- Witness for C1 (amended), instantiated at a concrete one-chunk
list. -/
theorem generateRAGResponse_sources_witness :
    ((RAGService.generateRAGResponse true "q" "Course" "Desc" [scnChunk0]
        (RAGService.GenOutcome.ok "hi")).1).sources
      = [scnChunk0].map (fun c =>
          { lessonId := c.lessonId, timestamp := c.startTime,
            snippet := String.mk (c.content.data.take 200)
              ++ (if 200 < c.content.data.length then "..." else "") }) :=
  (generateRAGResponse_sources "q" "Course" "Desc" [scnChunk0]
    (RAGService.GenOutcome.ok "hi") (by decide)).1

/-- Claim C2: with a configured backend and an empty context chunk list,
`generateRAGResponse` returns the canned empty-context message with empty
sources and does not call the generative backend (second component
false), and that message differs from the backend-not-configured
message whatever the question and course title. -/
theorem generateRAGResponse_emptyContext (question courseTitle courseDescription : String)
    (outcome : RAGService.GenOutcome) :
    RAGService.generateRAGResponse true question courseTitle courseDescription [] outcome
      = ({ answer := RAGService.emptyContextAnswer question courseTitle, sources := [] }, false)
    ∧ RAGService.emptyContextAnswer question courseTitle ≠ RAGService.notConfiguredAnswer := by
  constructor
  · rfl
  · intro hcontra
    have hI : (RAGService.emptyContextAnswer question courseTitle).data.head? = some 'I' := rfl
    rw [hcontra] at hI
    have hA : (RAGService.notConfiguredAnswer).data.head? = some 'A' := rfl
    rw [hA] at hI
    exact absurd hI (by decide)

/-- Witness for C2 at concrete arguments. -/
theorem generateRAGResponse_emptyContext_witness :
    RAGService.generateRAGResponse true "What is X?" "Course" "Desc" []
        RAGService.GenOutcome.failed
      = ({ answer := RAGService.emptyContextAnswer "What is X?" "Course", sources := [] }, false)
    ∧ RAGService.emptyContextAnswer "What is X?" "Course" ≠ RAGService.notConfiguredAnswer :=
  generateRAGResponse_emptyContext "What is X?" "Course" "Desc" RAGService.GenOutcome.failed

/-- Claim C3: when the generative backend call raises an error (and
hence was reached: configured backend, non-empty chunks), the operation
returns the fixed apology message together with the sources computed from
the chunks before the call, the same sources a successful call would
return; no error is propagated since the model is a total function into
the answer type. -/
theorem generateRAGResponse_backendError (question courseTitle courseDescription : String)
    (chunks : List TextChunk) (h : chunks ≠ []) :
    (RAGService.generateRAGResponse true question courseTitle courseDescription chunks
        RAGService.GenOutcome.failed).1
      = { answer := RAGService.apologyAnswer, sources := chunks.map RAGService.mkSourceRef }
    ∧ ∀ t : String,
        ((RAGService.generateRAGResponse true question courseTitle courseDescription chunks
            RAGService.GenOutcome.failed).1).sources
        = ((RAGService.generateRAGResponse true question courseTitle courseDescription chunks
            (RAGService.GenOutcome.ok t)).1).sources := by
  have hlen : ¬ (chunks.length = 0) := by simpa [List.length_eq_zero] using h
  constructor
  · simp [RAGService.generateRAGResponse, hlen]
  · intro t
    simp [RAGService.generateRAGResponse, hlen]

/-- Witness for C3 at a concrete one-chunk list. -/
theorem generateRAGResponse_backendError_witness :
    (RAGService.generateRAGResponse true "q" "Course" "Desc" [scnChunk0]
        RAGService.GenOutcome.failed).1
      = { answer := RAGService.apologyAnswer,
          sources := [scnChunk0].map RAGService.mkSourceRef } :=
  (generateRAGResponse_backendError "q" "Course" "Desc" [scnChunk0] (by decide)).1

/-- Claim C4: the search operation with k = 5 and minScore = 0.3 never
returns a chunk scoring below minScore; when no candidate reaches
minScore it returns the empty sequence (not an error); results are
ordered best score first with ties broken by ascending chunk ordinal; and
over three chunks scoring 0.9, 0.2, 0.5 it returns exactly the 0.9 chunk
then the 0.5 chunk. -/
theorem semanticSearch_minScore (score : TextChunk → Rat) (candidates res : List TextChunk)
    (h : RAGService.semanticSearch true score candidates 5 (3 / 10) = some res) :
    (∀ c ∈ res, 3 / 10 ≤ score c)
    ∧ ((∀ c ∈ candidates, score c < 3 / 10) → res = [])
    ∧ List.Sorted (DatabaseStorage.rankedBefore score) res
    ∧ RAGService.semanticSearch true scnScore [scnChunk0, scnChunk1, scnChunk2] 5 (3 / 10)
        = some [scnChunk0, scnChunk2] := by
  have h0 : RAGService.semanticSearch true score candidates 5 (3 / 10)
      = some (DatabaseStorage.searchTextChunksByVector score candidates 5 (3 / 10)) := rfl
  obtain rfl : res = DatabaseStorage.searchTextChunksByVector score candidates 5 (3 / 10) :=
    (Option.some.inj (h0.symm.trans h)).symm
  refine ⟨?_, ?_, ?_, ?_⟩
  · intro c hc
    have hmem := (List.perm_insertionSort (DatabaseStorage.rankedBefore score) _).mem_iff.1
      (List.mem_of_mem_take hc)
    exact of_decide_eq_true (List.mem_filter.1 hmem).2
  · intro hall
    have hfe : (candidates.filter fun c => decide (3 / 10 ≤ score c)) = [] := by
      apply List.filter_eq_nil_iff.2
      intro a ha
      simpa using not_le.2 (hall a ha)
    unfold DatabaseStorage.searchTextChunksByVector
    rw [hfe]
    rfl
  · exact List.Pairwise.sublist (List.take_sublist _ _)
      (List.sorted_insertionSort (DatabaseStorage.rankedBefore score) _)
  · show some ((List.insertionSort (DatabaseStorage.rankedBefore scnScore)
        ([scnChunk0, scnChunk1, scnChunk2].filter fun c => decide (3 / 10 ≤ scnScore c))).take 5)
      = some [scnChunk0, scnChunk2]
    norm_num [List.insertionSort, List.orderedInsert, DatabaseStorage.rankedBefore, scnScore,
      List.filter, scnChunk0, scnChunk1, scnChunk2]

/-- Witness for C4 at the concrete scenario: the returned list is sorted
by the ranking relation and equals the 0.9 chunk followed by the 0.5
chunk. -/
theorem semanticSearch_minScore_witness :
    List.Sorted (DatabaseStorage.rankedBefore scnScore) [scnChunk0, scnChunk2]
    ∧ RAGService.semanticSearch true scnScore [scnChunk0, scnChunk1, scnChunk2] 5 (3 / 10)
        = some [scnChunk0, scnChunk2] :=
  ⟨(semanticSearch_minScore scnScore [scnChunk0, scnChunk1, scnChunk2] [scnChunk0, scnChunk2]
      (by norm_num [RAGService.semanticSearch, DatabaseStorage.searchTextChunksByVector,
        List.insertionSort, List.orderedInsert, DatabaseStorage.rankedBefore, scnScore,
        List.filter, scnChunk0, scnChunk1, scnChunk2])).2.2.1,
   (semanticSearch_minScore scnScore [scnChunk0, scnChunk1, scnChunk2] [scnChunk0, scnChunk2]
      (by norm_num [RAGService.semanticSearch, DatabaseStorage.searchTextChunksByVector,
        List.insertionSort, List.orderedInsert, DatabaseStorage.rankedBefore, scnScore,
        List.filter, scnChunk0, scnChunk1, scnChunk2])).2.2.2⟩

/-- Claim C8 (code bug evidence): when the audio download succeeds and
the transcription then fails, `getVideoTranscript` returns null with the
downloaded temporary audio file still present on disk: the cleanup runs
only on the success path, so the file is not deleted before the operation
returns.  The last conjunct shows the contrast: on a successful
transcription the temp file set is empty again. -/
theorem getVideoTranscript_leaks_audio_on_transcription_failure :
    RAGService.getVideoTranscript envT lessonA st0
      = ({ transcripts := [], chunks := [], tempFiles := [RAGService.audioPath "vid123"],
            nextId := 0 },
          [RAGAction.download, RAGAction.transcribe], none)
    ∧ RAGService.audioPath "vid123"
        ∈ (RAGService.getVideoTranscript envT lessonA st0).1.tempFiles
    ∧ ∀ t : String,
        (RAGService.getVideoTranscript
          { downloadOk := true, transcribeResult := some t, geminiConfigured := true,
            embedOk := true, persistChunkOk := true } lessonA st0).1.tempFiles = [] :=
  ⟨rfl, by decide, fun t => rfl⟩

/-- Claim C9: ingestion is idempotent.  After a first run on a lesson
with no stored transcript whose acquisition succeeds, a second run (under
any environment) returns immediately: the state is unchanged and no
acquisition, embedding or persistence action is performed; and the first
run left exactly one transcript row for the lesson. -/
theorem processLessonForRAG_idempotent (env env2 : Env) (lesson : Lesson) (st : St)
    (t : String)
    (h0 : DatabaseStorage.getVideoTranscript st lesson.id = none)
    (hdl : env.downloadOk = true)
    (htr : env.transcribeResult = some t) :
    RAGService.processLessonForRAG env2 lesson (RAGService.processLessonForRAG env lesson st).1
      = ((RAGService.processLessonForRAG env lesson st).1, [], true)
    ∧ ((RAGService.processLessonForRAG env lesson st).1.transcripts.filter
        (fun r => r.lessonId == lesson.id)).length = 1 := by
  have hrun := (processLesson_run env lesson st t h0 hdl htr).1
  have hfind : DatabaseStorage.getVideoTranscript
      (RAGService.processLessonForRAG env lesson st).1 lesson.id
      = some { id := st.nextId, lessonId := lesson.id, transcript := t,
               source := "whisper_asr", language := "en" } := by
    unfold DatabaseStorage.getVideoTranscript
    rw [hrun]
    exact List.find?_cons_of_pos _ (by simp)
  constructor
  · exact processLesson_noop env2 lesson _ _ hfind
  · rw [hrun]
    have htail : st.transcripts.filter (fun r => r.lessonId == lesson.id) = [] := by
      apply List.filter_eq_nil_iff.2
      intro a ha
      exact List.find?_eq_none.1 h0 a ha
    simp [List.filter_cons, htail]

/-- Witness for C9: a concrete first run on the empty state followed by a
second run. -/
theorem processLessonForRAG_idempotent_witness :
    RAGService.processLessonForRAG envA lessonA
        (RAGService.processLessonForRAG envA lessonA st0).1
      = ((RAGService.processLessonForRAG envA lessonA st0).1, [], true)
    ∧ ((RAGService.processLessonForRAG envA lessonA st0).1.transcripts.filter
        (fun r => r.lessonId == lessonA.id)).length = 1 :=
  processLessonForRAG_idempotent envA envA lessonA st0 "hello world" rfl rfl rfl

/-- Claim C10 (implicit flaw, held by the code): if an ingestion run on a
fresh lesson acquires a transcript but then throws (embedding
unconfigured, embedding failure, or the first chunk insert throwing),
the transcript row is already persisted and the lesson has zero chunk
rows; and since any later run returns immediately once a transcript row
exists, no sequence of retries ever changes the state, so chunks are
never created for that lesson. -/
theorem processLessonForRAG_failed_ingest_starves (env : Env) (lesson : Lesson) (st : St)
    (t : String)
    (h0 : DatabaseStorage.getVideoTranscript st lesson.id = none)
    (hc0 : chunksFor st lesson.id = [])
    (hdl : env.downloadOk = true)
    (htr : env.transcribeResult = some t)
    (hfail : (RAGService.processLessonForRAG env lesson st).2.2 = false) :
    (∃ r, DatabaseStorage.getVideoTranscript
        (RAGService.processLessonForRAG env lesson st).1 lesson.id = some r
      ∧ r.transcript = t)
    ∧ chunksFor (RAGService.processLessonForRAG env lesson st).1 lesson.id = []
    ∧ ∀ envs : List Env,
        envs.foldl (fun s e => (RAGService.processLessonForRAG e lesson s).1)
          (RAGService.processLessonForRAG env lesson st).1
        = (RAGService.processLessonForRAG env lesson st).1 := by
  obtain ⟨hrun1, hrun2⟩ := processLesson_run env lesson st t h0 hdl htr
  have hfind : DatabaseStorage.getVideoTranscript
      (RAGService.processLessonForRAG env lesson st).1 lesson.id
      = some { id := st.nextId, lessonId := lesson.id, transcript := t,
               source := "whisper_asr", language := "en" } := by
    unfold DatabaseStorage.getVideoTranscript
    rw [hrun1]
    exact List.find?_cons_of_pos _ (by simp)
  refine ⟨⟨_, hfind, rfl⟩, ?_, ?_⟩
  · unfold chunksFor
    rw [hrun2 hfail]
    exact hc0
  · exact processLesson_foldl_noop lesson _ _ hfind

/-- Witness for C10: with the embedding backend unconfigured, a concrete
failed run on the empty state stores the transcript but zero chunks. -/
theorem processLessonForRAG_failed_ingest_starves_witness :
    chunksFor (RAGService.processLessonForRAG envC lessonA st0).1 lessonA.id = [] :=
  (processLessonForRAG_failed_ingest_starves envC lessonA st0 "hello world"
    rfl rfl rfl rfl rfl).2.1
